import Mathlib

/-!
Verification development for the hand-tracking / 3D-ring-overlay repository.

We shallowly embed the filtering and projection core of the repository:

* `KalmanFilter`       — the scalar Kalman filter of `src/utils/kalmanFilter.ts`.
* `ExponentialSmoothing3D` — the teleport-aware vector smoother of
  `src/components/RingScene3D.tsx` (the "Direct Position Tracker with
  Instant Teleportation" class).
* the per-hand smoother registry `getSmoothingFilter` and the
  landmark-to-anchor reduction `calculateRingPositions` of
  `src/components/HandTracking.tsx`.
* the pixel-to-world projection arithmetic inside the `RingScene3D`
  component.

JavaScript numbers are embedded as `ℚ` wherever the code only performs
field operations and order comparisons; the transcendental parts
(`Math.atan2`, `Math.tan`) are embedded over `ℝ`.
-/

namespace TensorFlow3D

/-! ### Scalar Kalman filter (`src/utils/kalmanFilter.ts`, class `KalmanFilter`)

State fields mirror the class fields: `x` current estimate, `p` estimation
error covariance, `q` process noise covariance, `r` measurement noise
covariance.  The constructor sets `p = 1`. -/

structure KState where
  x : ℚ
  p : ℚ
  q : ℚ
  r : ℚ
  deriving DecidableEq, Repr

/-- `new KalmanFilter(processNoise, measurementNoise, initialValue)`. -/
def KState.init (processNoise measurementNoise initialValue : ℚ) : KState :=
  { x := initialValue, p := 1, q := processNoise, r := measurementNoise }

/-- `KalmanFilter.filter(measurement)`: returns the filtered value together
with the mutated state.  Mirrors the source line by line:
`p = p + q`; `k = p / (p + r)`; `x = x + k * (measurement - x)`;
`p = (1 - k) * p`. -/
def kalmanStep (s : KState) (measurement : ℚ) : ℚ × KState :=
  let p1 := s.p + s.q
  let k := p1 / (p1 + s.r)
  let x1 := s.x + k * (measurement - s.x)
  let p2 := (1 - k) * p1
  (x1, { s with x := x1, p := p2 })

/-! ### Teleport-aware vector smoother
(`src/components/RingScene3D.tsx`, class `ExponentialSmoothing3D`)

The class stores `velocityMagnitude = jumpDistance / deltaTime` where
`jumpDistance = Math.sqrt(dx*dx + dy*dy + dz*dz)`.  The stored magnitude is
always nonnegative, and the code only ever compares it against the positive
constant `15`; likewise `jumpDistance` is only compared against the
teleport threshold.  To stay inside `ℚ` we therefore carry the *square* of
the velocity magnitude (`velSq`), and express each comparison in the exact
square-free equivalent form:

* `Math.sqrt d > t  ↔  t < 0 ∨ d > t ^ 2`   (for `d ≥ 0`),
* `velocityMagnitude > 15  ↔  velSq > 225`  (since the magnitude is `≥ 0`).

`performance.now()` is modelled by an explicit `now` argument. -/

structure ES3DState where
  previousX : ℚ
  previousY : ℚ
  previousZ : ℚ
  /-- square of the class field `velocityMagnitude` (see section comment) -/
  velSq : ℚ
  previousTimestamp : ℚ
  isFirstFrame : Bool
  microX : ℚ
  microY : ℚ
  microZ : ℚ
  microRotation : ℚ
  teleportThreshold : ℚ
  lastTeleportTime : ℚ
  deriving DecidableEq, Repr

/-- `new ExponentialSmoothing3D(_alpha, _minAlpha, _maxAlpha)`.  The source
comment reads: "Constructor params kept for compatibility but not used";
accordingly all three arguments are ignored and every field takes its
declared initializer. -/
def ES3DState.init (alpha minAlpha maxAlpha : ℚ) : ES3DState :=
  { previousX := 0, previousY := 0, previousZ := 0
    velSq := 0, previousTimestamp := 0, isFirstFrame := true
    microX := 0, microY := 0, microZ := 0, microRotation := 0
    teleportThreshold := 150, lastTeleportTime := 0 }

/-- Output record of `ExponentialSmoothing3D.filter`. -/
structure Coord4 where
  x : ℚ
  y : ℚ
  z : ℚ
  rotation : ℚ
  deriving DecidableEq, Repr

/-- `dx*dx + dy*dy + dz*dz` — the square of the source's `jumpDistance`. -/
def jumpDistSq (s : ES3DState) (x y z : ℚ) : ℚ :=
  (x - s.previousX) ^ 2 + (y - s.previousY) ^ 2 + (z - s.previousZ) ^ 2

/-- The velocity-update step of `filter`: `velocityMagnitude` (here its
square) is recomputed only when `previousTimestamp > 0` and
`deltaTime = (now - previousTimestamp) / 1000 > 0`; otherwise the stored
value is retained.  The division by `deltaTime` is guarded, exactly as in
the source. -/
def updatedVelSq (s : ES3DState) (x y z now : ℚ) : ℚ :=
  if s.previousTimestamp > 0 then
    let deltaTime := (now - s.previousTimestamp) / 1000
    if deltaTime > 0 then jumpDistSq s x y z / deltaTime ^ 2 else s.velSq
  else s.velSq

/-- The three behaviours of a non-first-frame update. -/
inductive Mode where
  | teleport
  | moving
  | still
  deriving DecidableEq, Repr

/-- Branch selection of `filter`:
`shouldTeleport = jumpDistance > teleportThreshold` (square-free form),
else `isMoving = velocityMagnitude > 15` using the freshly updated
velocity, else still. -/
def classify (s : ES3DState) (x y z now : ℚ) : Mode :=
  if s.teleportThreshold < 0 ∨ jumpDistSq s x y z > s.teleportThreshold ^ 2 then
    Mode.teleport
  else if updatedVelSq s x y z now > 225 then
    Mode.moving
  else
    Mode.still

/-- `ExponentialSmoothing3D.filter(x, y, z, rotation)` at clock value `now`,
returning the output record and the mutated state.

* First frame: adopt the raw values as micro and previous references and
  return them unchanged.
* Teleport: output raw, reset micro references to raw, record
  `lastTeleportTime = now`.
* Moving: output raw, advance micro references to raw.
* Still: micro-smooth each channel with `microAlpha = 0.2` and output the
  micro values.

In every branch the raw `(x, y, z)` and `now` are stored as the previous
values for the next call, and the updated velocity is stored. -/
def es3dFilter (s : ES3DState) (x y z rotation now : ℚ) : Coord4 × ES3DState :=
  if s.isFirstFrame then
    (⟨x, y, z, rotation⟩,
      { s with microX := x, microY := y, microZ := z, microRotation := rotation
               previousX := x, previousY := y, previousZ := z
               isFirstFrame := false, previousTimestamp := now })
  else
    let velSq1 := updatedVelSq s x y z now
    match classify s x y z now with
    | Mode.teleport =>
        (⟨x, y, z, rotation⟩,
          { s with velSq := velSq1
                   microX := x, microY := y, microZ := z, microRotation := rotation
                   lastTeleportTime := now
                   previousX := x, previousY := y, previousZ := z
                   previousTimestamp := now })
    | Mode.moving =>
        (⟨x, y, z, rotation⟩,
          { s with velSq := velSq1
                   microX := x, microY := y, microZ := z, microRotation := rotation
                   previousX := x, previousY := y, previousZ := z
                   previousTimestamp := now })
    | Mode.still =>
        let microAlpha : ℚ := 0.2
        let mX := microAlpha * x + (1 - microAlpha) * s.microX
        let mY := microAlpha * y + (1 - microAlpha) * s.microY
        let mZ := microAlpha * z + (1 - microAlpha) * s.microZ
        let mR := microAlpha * rotation + (1 - microAlpha) * s.microRotation
        (⟨mX, mY, mZ, mR⟩,
          { s with velSq := velSq1
                   microX := mX, microY := mY, microZ := mZ, microRotation := mR
                   previousX := x, previousY := y, previousZ := z
                   previousTimestamp := now })

/-- `ExponentialSmoothing3D.reset(x, y, z, rotation)`. -/
def es3dReset (s : ES3DState) (x y z rotation : ℚ) : ES3DState :=
  { s with previousX := x, previousY := y, previousZ := z
           microX := x, microY := y, microZ := z, microRotation := rotation
           velSq := 0, previousTimestamp := 0, isFirstFrame := true }

/-- Run a sequence of `filter` calls `(x, y, z, rotation, now)` from a given
state, collecting the outputs. -/
def runES3D (s : ES3DState) : List (ℚ × ℚ × ℚ × ℚ × ℚ) → List Coord4
  | [] => []
  | (x, y, z, r, now) :: rest =>
      let step := es3dFilter s x y z r now
      step.1 :: runES3D step.2 rest

/-- `b` lies strictly between `a` and `c` (in whichever order). -/
def StrictlyBetween (a b c : ℚ) : Prop :=
  (a < b ∧ b < c) ∨ (c < b ∧ b < a)

/-! ### Target registry (`src/components/HandTracking.tsx`)

`smoothingFiltersRef` is a `Map<string, ExponentialSmoothing3D>`; we model
it as a partial map from keys to smoother states.  JavaScript hands out the
stored instance by reference and `filter` mutates it in place; here
`processHand` makes the read-modify-write explicit. -/

def Registry : Type := String → Option ES3DState

/-- The empty `Map`. -/
def Registry.empty : Registry := fun _ => none

/-- `Map.prototype.set`. -/
def Registry.set (m : Registry) (key : String) (s : ES3DState) : Registry :=
  fun k => if k = key then some s else m k

/-- `getSmoothingFilter(handedness)`: if no smoother is stored for the key,
construct `new ExponentialSmoothing3D(0.8)` (defaults `0.5`, `0.95` for the
remaining parameters) and store it; return the stored instance.  The result
pairs the instance with the (possibly extended) map. -/
def getSmoothingFilter (m : Registry) (handedness : String) : ES3DState × Registry :=
  match m handedness with
  | some s => (s, m)
  | none =>
      let fresh := ES3DState.init 0.8 0.5 0.95
      (fresh, m.set handedness fresh)

/-- One per-hand smoothing pass as performed inside
`calculateRingPositions`: fetch (or create) the smoother for the key, run
`filter`, and store the mutated instance back (in JavaScript the mutation
happens through the shared reference). -/
def processHand (m : Registry) (key : String) (x y z rotation now : ℚ) :
    Coord4 × Registry :=
  let fetched := getSmoothingFilter m key
  let step := es3dFilter fetched.1 x y z rotation now
  (step.1, fetched.2.set key step.2)

/-! ### Landmark-to-anchor reduction (`src/components/HandTracking.tsx`,
`calculateRingPositions`)

A detector keypoint has `x`, `y` and an optional `z`; a hand is an ordered
keypoint list with a handedness label.  The source indexes
`hand.keypoints[13]` and `hand.keypoints[14]` *without* a presence check: in
JavaScript, if the index is out of range the subsequent property access
(`kp13.x`) throws a `TypeError`.  We model a thrown exception as `none`, so
`calculateRingAnchors` (the anchor-producing part of the `hands.map` call)
is a `mapM`: one missing keypoint aborts the whole frame's map, exactly as
the exception aborts `hands.map`.  (The per-anchor smoothing that
`calculateRingPositions` applies afterwards is `processHand` above; it
cannot affect whether an entry is produced.) -/

structure Keypoint where
  x : ℚ
  y : ℚ
  z : Option ℚ
  deriving DecidableEq, Repr

structure Hand where
  keypoints : List Keypoint
  handedness : String
  deriving DecidableEq, Repr

/-- Anchor position produced for one hand (rotation is handled separately
over `ℝ`, see `ringAngle`). -/
structure Anchor where
  x : ℚ
  y : ℚ
  z : ℚ
  deriving DecidableEq, Repr

/-- The position part of the reduction:
`ringX = kp13.x * 0.2 + kp14.x * 0.82` (likewise `y`), and
`ringZ = (kp13.z || 0) * 0.2 + (kp14.z || 0) * 0.82`.  `none` models the
`TypeError` thrown when keypoint 13 or 14 is absent. -/
def ringAnchor (hand : Hand) : Option Anchor :=
  match hand.keypoints[13]?, hand.keypoints[14]? with
  | some kp13, some kp14 =>
      some { x := kp13.x * 0.2 + kp14.x * 0.82
             y := kp13.y * 0.2 + kp14.y * 0.82
             z := kp13.z.getD 0 * 0.2 + kp14.z.getD 0 * 0.82 }
  | _, _ => none

/-- The anchor-producing part of `calculateRingPositions`:
`hands.map(...)` under JavaScript exception semantics — if any hand's
designated keypoints are missing, the whole map throws (`none`), and no
anchor list at all is produced for the frame. -/
def calculateRingAnchors : List Hand → Option (List Anchor)
  | [] => some []
  | h :: rest =>
      match ringAnchor h, calculateRingAnchors rest with
      | some a, some as_ => some (a :: as_)
      | _, _ => none

/-- `Math.atan2(y, x)` (signed zeros ignored; `atan2(0, 0) = 0`). -/
noncomputable def atan2 (y x : ℝ) : ℝ :=
  if 0 < x then Real.arctan (y / x)
  else if x < 0 then
    (if 0 ≤ y then Real.arctan (y / x) + Real.pi else Real.arctan (y / x) - Real.pi)
  else if 0 < y then Real.pi / 2
  else if y < 0 then -(Real.pi / 2)
  else 0

/-- The rotation part of the reduction:
`angle = Math.atan2(kp14.y - kp13.y, kp14.x - kp13.x)`, with the same
keypoint accesses (and the same `TypeError` on absence) as `ringAnchor`. -/
noncomputable def ringAngle (hand : Hand) : Option ℝ :=
  match hand.keypoints[13]?, hand.keypoints[14]? with
  | some kp13, some kp14 =>
      some (atan2 ((kp14.y : ℝ) - (kp13.y : ℝ)) ((kp14.x : ℝ) - (kp13.x : ℝ)))
  | _, _ => none

/-! ### Pixel-to-world projection (`src/components/RingScene3D.tsx`,
inside the `ringPositions.map` body)

`fov = 75` degrees, `cameraZ = 1`;
`visibleHeight = 2 * tan(vFov / 2) * cameraZ` with `vFov = fov * π / 180`;
`visibleWidth = visibleHeight * (width / height)`;
`worldX = (x / width - 0.5) * visibleWidth`;
`worldY = -(y / height - 0.5) * visibleHeight`;
`x3D = -worldX * positionScale + positionOffsetX` (mirroring);
`y3D = worldY * positionScale + positionOffsetY`;
`z3D = z * -0.01 + positionOffsetZ`. -/

noncomputable def visibleHeight : ℝ :=
  2 * Real.tan ((75 * Real.pi / 180) / 2) * 1

noncomputable def visibleWidth (width height : ℝ) : ℝ :=
  visibleHeight * (width / height)

noncomputable def worldX (px width height : ℝ) : ℝ :=
  (px / width - 0.5) * visibleWidth width height

noncomputable def worldY (py height : ℝ) : ℝ :=
  -(py / height - 0.5) * visibleHeight

noncomputable def x3D (px width height positionScale positionOffsetX : ℝ) : ℝ :=
  -(worldX px width height) * positionScale + positionOffsetX

noncomputable def y3D (py height positionScale positionOffsetY : ℝ) : ℝ :=
  worldY py height * positionScale + positionOffsetY

def z3D (pz positionOffsetZ : ℚ) : ℚ :=
  pz * (-0.01) + positionOffsetZ

/-! ### Shared helper lemmas -/

/-- The Kalman gain is strictly between 0 and 1 when the predicted
covariance and the measurement noise are positive. -/
theorem kalman_gain_bounds {p1 r : ℚ} (hp1 : 0 < p1) (hr : 0 < r) :
    0 < p1 / (p1 + r) ∧ p1 / (p1 + r) < 1 := by
  have hpr : 0 < p1 + r := by linarith
  exact ⟨div_pos hp1 hpr, (div_lt_one hpr).mpr (by linarith)⟩

/-- The micro-smoothing blend with `microAlpha = 0.2` lands strictly
between the previous micro value and the raw value when they differ. -/
theorem micro_blend_strictly_between (mi xv : ℚ) (h : mi ≠ xv) :
    StrictlyBetween mi ((0.2 : ℚ) * xv + (1 - 0.2) * mi) xv := by
  rcases lt_or_gt_of_ne h with h' | h'
  · exact Or.inl ⟨by nlinarith, by nlinarith⟩
  · exact Or.inr ⟨by nlinarith, by nlinarith⟩

/-- `ringAnchor` fails exactly like the source's `TypeError`: absence of
either designated keypoint yields no result. -/
theorem ringAnchor_eq_none {hand : Hand}
    (h : hand.keypoints[13]? = none ∨ hand.keypoints[14]? = none) :
    ringAnchor hand = none := by
  rcases h with h | h
  · simp [ringAnchor, h]
  · cases h13 : hand.keypoints[13]? <;> simp [ringAnchor, h13, h]

/-- `ringAnchor` succeeds when both designated keypoints are present. -/
theorem ringAnchor_eq_some {hand : Hand} {kp13 kp14 : Keypoint}
    (h13 : hand.keypoints[13]? = some kp13) (h14 : hand.keypoints[14]? = some kp14) :
    ringAnchor hand =
      some { x := kp13.x * 0.2 + kp14.x * 0.82
             y := kp13.y * 0.2 + kp14.y * 0.82
             z := kp13.z.getD 0 * 0.2 + kp14.z.getD 0 * 0.82 } := by
  simp [ringAnchor, h13, h14]

/-! ### Claim C10 — scalar Kalman filter invariants -/

/-- C10: for every scalar Kalman filter state with `r > 0`, `q ≥ 0` and
`p > 0`, a `filter(measurement)` call preserves `p > 0`, and the returned
estimate lies between the previous estimate and the measurement — equal to
both when they coincide, strictly between them when they differ. -/
theorem kalman_step_invariants (s : KState) (m : ℚ)
    (hr : 0 < s.r) (hq : 0 ≤ s.q) (hp : 0 < s.p) :
    0 < (kalmanStep s m).2.p ∧
    (s.x = m → (kalmanStep s m).1 = m) ∧
    (s.x < m → s.x < (kalmanStep s m).1 ∧ (kalmanStep s m).1 < m) ∧
    (m < s.x → m < (kalmanStep s m).1 ∧ (kalmanStep s m).1 < s.x) := by
  have hp1 : 0 < s.p + s.q := by linarith
  obtain ⟨hk0, hk1⟩ := kalman_gain_bounds hp1 hr
  simp only [kalmanStep]
  refine ⟨by nlinarith, fun h => by rw [h]; ring, fun h => ⟨by nlinarith, by nlinarith⟩,
    fun h => ⟨by nlinarith, by nlinarith⟩⟩

/-- C10 witness: the invariants evaluated on the default constructor
`new KalmanFilter(0.01, 0.1, 0)` and measurement `2`. -/
theorem kalman_step_invariants_witness :
    0 < (kalmanStep (KState.init 0.01 0.1 0) 2).2.p ∧
    0 < (kalmanStep (KState.init 0.01 0.1 0) 2).1 ∧
    (kalmanStep (KState.init 0.01 0.1 0) 2).1 < 2 := by
  have h := kalman_step_invariants (KState.init 0.01 0.1 0) 2
    (by norm_num [KState.init]) (by norm_num [KState.init]) (by norm_num [KState.init])
  have hb := h.2.2.1 (by norm_num [KState.init])
  exact ⟨h.1, hb.1, hb.2⟩

/-! ### Claim C8 — repeated identical measurements with `q = 0` -/

/-- Initial state for the C8 counterexample:
`new KalmanFilter(0, 1, 0)`, i.e. `q = 0`, `r = 1`, `x = 0`, `p = 1`. -/
def kalmanCexState : KState := KState.init 0 1 0

/-- C8 counterexample: with `q = 0` and `r = 1 > 0`, feeding the identical
measurement `1` twice does *not* leave the estimate unchanged after the
first update: the first call returns `1/2`, the second returns `2/3`. -/
theorem kalman_not_idempotent_cex :
    (kalmanStep (kalmanStep kalmanCexState 1).2 1).1 ≠ (kalmanStep kalmanCexState 1).1 ∧
    (kalmanStep kalmanCexState 1).1 = 1 / 2 ∧
    (kalmanStep (kalmanStep kalmanCexState 1).2 1).1 = 2 / 3 := by
  norm_num [kalmanCexState, KState.init, kalmanStep]

/-- C8 (amended): with `q = 0`, `r > 0` and `p > 0`, a `filter(m)` call
returns the previous estimate unchanged **iff** the estimate already equals
the measurement; the estimate is the filter's unique fixed point for a
repeated measurement, and once it is reached further identical
measurements leave the estimate unchanged. -/
theorem kalman_unchanged_iff_converged (s : KState) (m : ℚ)
    (hq : s.q = 0) (hr : 0 < s.r) (hp : 0 < s.p) :
    (kalmanStep s m).1 = s.x ↔ s.x = m := by
  have hp1 : 0 < s.p + s.q := by rw [hq]; linarith
  obtain ⟨hk0, _⟩ := kalman_gain_bounds hp1 hr
  simp only [kalmanStep]
  constructor
  · intro h
    have h' : (s.p + s.q) / (s.p + s.q + s.r) * (m - s.x) = 0 := by linarith
    rcases mul_eq_zero.mp h' with h'' | h''
    · exact absurd h'' (ne_of_gt hk0)
    · linarith
  · intro h
    rw [h]; ring

/-- C8 witness: starting already converged at the measurement
(`x = 5`, `m = 5`, `q = 0`, `r = 1`), the estimate is unchanged. -/
theorem kalman_unchanged_iff_converged_witness :
    (kalmanStep (KState.init 0 1 5) 5).1 = (KState.init 0 1 5).x :=
  (kalman_unchanged_iff_converged (KState.init 0 1 5) 5 rfl
    (by norm_num [KState.init]) (by norm_num [KState.init])).mpr rfl

/-! ### Claim C9 — constructor parameters are kept but unused -/

/-- C9: two teleport-aware smoothers constructed with arbitrary, possibly
different `(alpha, minAlpha, maxAlpha)` arguments produce identical output
sequences on every identical sequence of `filter` inputs and timestamps —
the constructor ignores all three parameters. -/
theorem constructor_params_unused (a1 b1 c1 a2 b2 c2 : ℚ)
    (ins : List (ℚ × ℚ × ℚ × ℚ × ℚ)) :
    runES3D (ES3DState.init a1 b1 c1) ins = runES3D (ES3DState.init a2 b2 c2) ins :=
  rfl

/-! ### Claim C2 — first-observation identity -/

/-- C2: for an entity key with no prior state in the registry,
`filter(x, y, z, rotation)` returns exactly the raw values, and the stored
state adopts them as both the micro reference and the previous reference
(and clears the first-frame flag), so no smoothing transient from the
zero/default baseline occurs. -/
theorem first_observation_identity (m : Registry) (key : String)
    (x y z r now : ℚ) (h : m key = none) :
    (processHand m key x y z r now).1 = ⟨x, y, z, r⟩ ∧
    ((processHand m key x y z r now).2 key).map
        (fun s1 => (s1.microX, s1.microY, s1.microZ, s1.microRotation,
                    s1.previousX, s1.previousY, s1.previousZ, s1.isFirstFrame)) =
      some (x, y, z, r, x, y, z, false) := by
  simp [processHand, getSmoothingFilter, h, Registry.set, es3dFilter, ES3DState.init]

/-- C2 witness: inserting a first observation `(3, 4, 5, 7)` for key
`"Left"` into the empty registry returns it verbatim. -/
theorem first_observation_identity_witness :
    (processHand Registry.empty "Left" 3 4 5 7 0).1 = ⟨3, 4, 5, 7⟩ :=
  (first_observation_identity Registry.empty "Left" 3 4 5 7 0 rfl).1

/-! ### Claim C1 — teleport snap and still-state micro blend -/

/-- C1: after at least one prior update, (a) if the squared jump distance
exceeds the squared teleport threshold (i.e. the Euclidean distance exceeds
the threshold) the filter returns the raw values exactly and resets every
micro reference to the raw values; (b) if the distance is below the
(nonnegative) threshold and the updated velocity is below the moving
threshold, each returned channel is a blend strictly between the previous
micro value and the raw value whenever they differ. -/
theorem teleport_snap_and_still_blend (s : ES3DState) (x y z r now : ℚ)
    (hf : s.isFirstFrame = false) :
    (jumpDistSq s x y z > s.teleportThreshold ^ 2 →
      (es3dFilter s x y z r now).1 = ⟨x, y, z, r⟩ ∧
      (es3dFilter s x y z r now).2.microX = x ∧
      (es3dFilter s x y z r now).2.microY = y ∧
      (es3dFilter s x y z r now).2.microZ = z ∧
      (es3dFilter s x y z r now).2.microRotation = r) ∧
    (0 ≤ s.teleportThreshold → jumpDistSq s x y z < s.teleportThreshold ^ 2 →
      updatedVelSq s x y z now < 225 →
      (s.microX ≠ x → StrictlyBetween s.microX (es3dFilter s x y z r now).1.x x) ∧
      (s.microY ≠ y → StrictlyBetween s.microY (es3dFilter s x y z r now).1.y y) ∧
      (s.microZ ≠ z → StrictlyBetween s.microZ (es3dFilter s x y z r now).1.z z) ∧
      (s.microRotation ≠ r →
        StrictlyBetween s.microRotation (es3dFilter s x y z r now).1.rotation r)) := by
  constructor
  · intro hjump
    have hcl : classify s x y z now = Mode.teleport := by
      unfold classify
      rw [if_pos (Or.inr hjump)]
    simp [es3dFilter, hf, hcl]
  · intro hthr hjump hvel
    have hnt : ¬(s.teleportThreshold < 0 ∨ jumpDistSq s x y z > s.teleportThreshold ^ 2) := by
      push_neg
      exact ⟨hthr, le_of_lt hjump⟩
    have hcl : classify s x y z now = Mode.still := by
      unfold classify
      rw [if_neg hnt, if_neg (not_lt.mpr (le_of_lt hvel))]
    have hout : (es3dFilter s x y z r now).1 =
        ⟨(0.2 : ℚ) * x + (1 - 0.2) * s.microX, (0.2 : ℚ) * y + (1 - 0.2) * s.microY,
         (0.2 : ℚ) * z + (1 - 0.2) * s.microZ,
         (0.2 : ℚ) * r + (1 - 0.2) * s.microRotation⟩ := by
      simp [es3dFilter, hf, hcl]
    rw [hout]
    exact ⟨fun hne => micro_blend_strictly_between s.microX x hne,
      fun hne => micro_blend_strictly_between s.microY y hne,
      fun hne => micro_blend_strictly_between s.microZ z hne,
      fun hne => micro_blend_strictly_between s.microRotation r hne⟩

/-- A concrete post-first-frame state for the C1 witness: previous raw
position `(0,0,0)`, micro references `0`, previous timestamp `1000`,
default teleport threshold `150`. -/
def c1State : ES3DState :=
  { previousX := 0, previousY := 0, previousZ := 0
    velSq := 0, previousTimestamp := 1000, isFirstFrame := false
    microX := 0, microY := 0, microZ := 0, microRotation := 0
    teleportThreshold := 150, lastTeleportTime := 0 }

/-- C1 witness: from `c1State`, a jump to `(200, 0, 0)` (distance 200 >
150) snaps to the raw values; a slow move to `(10, 0, 0)` over one second
(distance 10 < 150, velocity 10 < 15) outputs a value strictly between the
micro reference `0` and the raw `10`. -/
theorem teleport_snap_and_still_blend_witness :
    (es3dFilter c1State 200 0 0 0 2000).1 = ⟨200, 0, 0, 0⟩ ∧
    StrictlyBetween 0 (es3dFilter c1State 10 0 0 7 2000).1.x 10 := by
  constructor
  · exact ((teleport_snap_and_still_blend c1State 200 0 0 0 2000 rfl).1
      (by norm_num [jumpDistSq, c1State])).1
  · have h := ((teleport_snap_and_still_blend c1State 10 0 0 7 2000 rfl).2
      (by norm_num [c1State]) (by norm_num [jumpDistSq, c1State])
      (by norm_num [updatedVelSq, jumpDistSq, c1State])).1 (by norm_num [c1State])
    exact h

/-! ### Claim C3 — non-positive elapsed time -/

/-- A concrete state for C3: the previous update left a velocity estimate
of `20 px/s` (stored as `velSq = 400 > 225`), previous timestamp `5`. -/
def c3State : ES3DState :=
  { previousX := 0, previousY := 0, previousZ := 0
    velSq := 400, previousTimestamp := 5, isFirstFrame := false
    microX := 0, microY := 0, microZ := 0, microRotation := 0
    teleportThreshold := 150, lastTeleportTime := 0 }

/-- C3 counterexample: with elapsed time `5 - 5 = 0` and a retained
velocity estimate of `20 > 15` from the prior update, the update is
classified as *moving*, not "still" — the classifier consults the stale
velocity estimate, and the raw value is passed through instead of the
still-state micro blend. -/
theorem stale_velocity_not_still_cex :
    (5 : ℚ) - c3State.previousTimestamp ≤ 0 ∧
    classify c3State 10 0 0 5 = Mode.moving ∧
    (es3dFilter c3State 10 0 0 0 5).1.x = 10 := by
  have hvel : updatedVelSq c3State 10 0 0 5 = 400 := by
    norm_num [updatedVelSq, c3State]
  have hcl : classify c3State 10 0 0 5 = Mode.moving := by
    unfold classify
    rw [if_neg (by norm_num [jumpDistSq, c3State]), if_pos (by rw [hvel]; norm_num)]
  refine ⟨by norm_num [c3State], hcl, ?_⟩
  unfold es3dFilter
  rw [hcl]
  norm_num [c3State]

/-- C3 (amended): when the elapsed time since the previous update is zero
or negative, the guarded velocity update is skipped (no division occurs),
the stored velocity estimate is retained unchanged, and — in the absence of
a teleport — the update is classified as "still" **iff** the retained
velocity estimate is at or below the moving threshold. -/
theorem nonpositive_elapsed_retains_velocity (s : ES3DState) (x y z now : ℚ)
    (hf : s.isFirstFrame = false) (h : now - s.previousTimestamp ≤ 0) :
    updatedVelSq s x y z now = s.velSq ∧
    (∀ r, (es3dFilter s x y z r now).2.velSq = s.velSq) ∧
    (¬(s.teleportThreshold < 0 ∨ jumpDistSq s x y z > s.teleportThreshold ^ 2) →
      (classify s x y z now = Mode.still ↔ s.velSq ≤ 225)) := by
  have hvel : updatedVelSq s x y z now = s.velSq := by
    unfold updatedVelSq
    by_cases hts : s.previousTimestamp > 0
    · rw [if_pos hts, if_neg (by simp only [not_lt]; linarith)]
    · rw [if_neg hts]
  refine ⟨hvel, fun r => ?_, fun hnt => ?_⟩
  · unfold es3dFilter
    rw [hf]
    simp only [Bool.false_eq_true, if_false]
    cases hcl : classify s x y z now <;> simp [hvel]
  · unfold classify
    rw [if_neg hnt, hvel]
    constructor
    · intro hst
      by_contra hgt
      rw [if_pos (not_le.mp hgt)] at hst
      exact Mode.noConfusion hst
    · intro hle
      rw [if_neg (not_lt.mpr hle)]

/-- C3 witness: at `c3State` with `now = 5` (elapsed time zero), the
velocity estimate `400` is retained both by the velocity-update step and in
the state stored by `filter`. -/
theorem nonpositive_elapsed_retains_velocity_witness :
    updatedVelSq c3State 10 0 0 5 = c3State.velSq ∧
    (es3dFilter c3State 10 0 0 7 5).2.velSq = c3State.velSq := by
  have h := nonpositive_elapsed_retains_velocity c3State 10 0 0 5 rfl
    (by norm_num [c3State])
  exact ⟨h.1, h.2.1 7⟩

/-! ### Claim C7 — registry isolation -/

/-- C7: the registry's get-or-create operation returns the stored smoother
unchanged (and leaves the map untouched) for a key that already has one,
lazily constructs and stores `new ExponentialSmoothing3D(0.8)` for a key
that has none, and a full per-hand update under one key never changes what
is stored under any other key. -/
theorem registry_isolation (m : Registry) (key : String) (x y z r now : ℚ) :
    (∀ s, m key = some s → getSmoothingFilter m key = (s, m)) ∧
    (m key = none →
      (getSmoothingFilter m key).1 = ES3DState.init 0.8 0.5 0.95 ∧
      (getSmoothingFilter m key).2 key = some (ES3DState.init 0.8 0.5 0.95)) ∧
    (∀ key', key' ≠ key → (processHand m key x y z r now).2 key' = m key') := by
  refine ⟨fun s hs => ?_, fun hn => ?_, fun key' hne => ?_⟩
  · simp [getSmoothingFilter, hs]
  · simp [getSmoothingFilter, hn, Registry.set]
  · unfold processHand
    simp only [Registry.set, if_neg hne]
    unfold getSmoothingFilter
    cases hm : m key
    · simp [Registry.set, if_neg hne]
    · simp

/-- A registry holding one freshly constructed smoother under key
`"Right"`, for the C7 witness. -/
def regRight : Registry := Registry.empty.set "Right" (ES3DState.init 0.8 0.5 0.95)

/-- C7 witness: on `regRight`, a lookup of `"Right"` returns the stored
instance without touching the map, and a full update under `"Left"` leaves
the entry stored under `"Right"` unchanged. -/
theorem registry_isolation_witness :
    getSmoothingFilter regRight "Right" = (ES3DState.init 0.8 0.5 0.95, regRight) ∧
    (processHand regRight "Left" 1 2 3 4 5).2 "Right" = regRight "Right" := by
  constructor
  · exact (registry_isolation regRight "Right" 1 2 3 4 5).1
      (ES3DState.init 0.8 0.5 0.95) (by simp [regRight, Registry.set, Registry.empty])
  · exact (registry_isolation regRight "Left" 1 2 3 4 5).2.2 "Right" (by decide)

/-! ### Claims C4 and C5 — landmark-to-anchor reduction -/

/-- Filler keypoint for concrete hands. -/
def pad : Keypoint := ⟨0, 0, none⟩

/-- A hand with 15 keypoints whose ring-finger base (index 13) is `(0,0)`
and first joint (index 14) is `(1,0)`. -/
def handA : Hand :=
  ⟨[pad, pad, pad, pad, pad, pad, pad, pad, pad, pad, pad, pad, pad,
    ⟨0, 0, none⟩, ⟨1, 0, none⟩], "Left"⟩

/-- A hand with 15 keypoints whose base (index 13) is `(1,0)` and joint
(index 14) is `(0,0)`. -/
def handB : Hand :=
  ⟨[pad, pad, pad, pad, pad, pad, pad, pad, pad, pad, pad, pad, pad,
    ⟨1, 0, none⟩, ⟨0, 0, none⟩], "Left"⟩

/-- A hand whose keypoint list stops at index 13, so the designated joint
point (index 14) is absent. -/
def handMissing : Hand :=
  ⟨[pad, pad, pad, pad, pad, pad, pad, pad, pad, pad, pad, pad, pad, pad],
    "Right"⟩

/-- C4 counterexample: no single weight `w` (in particular none in
`[0.18, 0.2]`) makes the computed anchor `base·w + joint·(1-w)` on both
`handA` (base 0, joint 1: anchor `0.82`, forcing `w = 0.18`) and `handB`
(base 1, joint 0: anchor `0.2`, forcing `w = 0.2`): the code uses weights
`0.2` and `0.82`, which sum to `1.02`, not `1`. -/
theorem single_weight_blend_cex :
    ¬ ∃ w : ℚ, (ringAnchor handA).map Anchor.x = some (0 * w + 1 * (1 - w)) ∧
               (ringAnchor handB).map Anchor.x = some (1 * w + 0 * (1 - w)) := by
  have eA : ringAnchor handA = some ⟨41 / 50, 0, 0⟩ := by
    rw [@ringAnchor_eq_some handA ⟨0, 0, none⟩ ⟨1, 0, none⟩ rfl rfl]
    norm_num
  have eB : ringAnchor handB = some ⟨1 / 5, 0, 0⟩ := by
    rw [@ringAnchor_eq_some handB ⟨1, 0, none⟩ ⟨0, 0, none⟩ rfl rfl]
    norm_num
  rintro ⟨w, h1, h2⟩
  rw [eA] at h1
  rw [eB] at h2
  norm_num [Option.map_some] at h1 h2
  linarith

/-- C4 (amended): for every observation containing the designated points,
the anchor position per coordinate is `base·(1/5) + joint·(41/50)` — fixed
weights `0.2` and `0.82` whose sum is `1.02`, not a convex blend with a
single weight — with `0` substituted for missing z values in the same
blend, and the orientation is `atan2(joint.y - base.y, joint.x - base.x)`. -/
theorem ring_anchor_formula (hand : Hand) (kp13 kp14 : Keypoint)
    (h13 : hand.keypoints[13]? = some kp13) (h14 : hand.keypoints[14]? = some kp14) :
    ringAnchor hand = some ⟨kp13.x * (1 / 5) + kp14.x * (41 / 50),
                            kp13.y * (1 / 5) + kp14.y * (41 / 50),
                            kp13.z.getD 0 * (1 / 5) + kp14.z.getD 0 * (41 / 50)⟩ ∧
    ringAngle hand = some (atan2 ((kp14.y : ℝ) - (kp13.y : ℝ)) ((kp14.x : ℝ) - (kp13.x : ℝ))) ∧
    (1 / 5 : ℚ) + 41 / 50 ≠ 1 := by
  refine ⟨?_, ?_, by norm_num⟩
  · rw [ringAnchor_eq_some h13 h14]
    norm_num
  · simp [ringAngle, h13, h14]

/-- C4 witness: the amended formula evaluated on `handA`
(base `(0,0)`, joint `(1,0)`): the anchor is `(0.82, 0, 0)`. -/
theorem ring_anchor_formula_witness :
    ringAnchor handA = some ⟨41 / 50, 0, 0⟩ := by
  have h := (ring_anchor_formula handA ⟨0, 0, none⟩ ⟨1, 0, none⟩ rfl rfl).1
  rw [h]
  norm_num

/-- C5 counterexample: on the frame `[handA, handMissing]`, the hand with
a missing designated point does not merely drop out of the output — the
thrown access (`none`) aborts the whole map, so the intact `handA`'s
anchor (which exists: `ringAnchor handA = some (0.82, 0, 0)`) is not
produced either, contradicting "anchors for the other entities in the same
frame are still produced unaffected". -/
theorem missing_point_aborts_frame_cex :
    ringAnchor handA = some ⟨41 / 50, 0, 0⟩ ∧
    ringAnchor handMissing = none ∧
    calculateRingAnchors [handA, handMissing] = none ∧
    calculateRingAnchors [handA, handMissing] ≠ some [⟨41 / 50, 0, 0⟩] := by
  have eA : ringAnchor handA = some ⟨41 / 50, 0, 0⟩ := by
    rw [@ringAnchor_eq_some handA ⟨0, 0, none⟩ ⟨1, 0, none⟩ rfl rfl]
    norm_num
  have eM : ringAnchor handMissing = none := ringAnchor_eq_none (Or.inr rfl)
  have eC : calculateRingAnchors [handA, handMissing] = none := by
    simp [calculateRingAnchors, eA, eM]
  exact ⟨eA, eM, eC, by rw [eC]; simp⟩

/-- C5 (amended): a missing designated point in *any* observation of a
frame makes the reducer produce no anchor list at all for that frame (the
access throws, aborting the per-frame map, and the caller's frame-level
catch swallows the error); only when every observation carries at least 15
keypoints does every entity get its anchor, one per observation. -/
theorem missing_point_frame_behavior :
    (∀ (hands : List Hand) (h : Hand), h ∈ hands →
        (h.keypoints[13]? = none ∨ h.keypoints[14]? = none) →
        calculateRingAnchors hands = none) ∧
    (∀ hands : List Hand, (∀ h ∈ hands, 15 ≤ h.keypoints.length) →
        ∃ l, calculateRingAnchors hands = some l ∧ l.length = hands.length) := by
  constructor
  · intro hands h hmem hmiss
    induction hands with
    | nil => cases hmem
    | cons a rest ih =>
        rcases List.mem_cons.mp hmem with rfl | hmem'
        · unfold calculateRingAnchors
          rw [ringAnchor_eq_none hmiss]
        · unfold calculateRingAnchors
          rw [ih hmem']
          cases ringAnchor a <;> rfl
  · intro hands hlen
    induction hands with
    | nil => exact ⟨[], rfl, rfl⟩
    | cons a rest ih =>
        obtain ⟨l, hl, hlen'⟩ := ih fun h hm => hlen h (List.mem_cons_of_mem a hm)
        have ha : 15 ≤ a.keypoints.length := hlen a (List.mem_cons_self a rest)
        have h13 : 13 < a.keypoints.length := by omega
        have h14 : 14 < a.keypoints.length := by omega
        have e13 : a.keypoints[13]? = some (a.keypoints.get ⟨13, h13⟩) :=
          List.getElem?_eq_getElem h13
        have e14 : a.keypoints[14]? = some (a.keypoints.get ⟨14, h14⟩) :=
          List.getElem?_eq_getElem h14
        refine ⟨⟨(a.keypoints.get ⟨13, h13⟩).x * 0.2 + (a.keypoints.get ⟨14, h14⟩).x * 0.82,
                 (a.keypoints.get ⟨13, h13⟩).y * 0.2 + (a.keypoints.get ⟨14, h14⟩).y * 0.82,
                 (a.keypoints.get ⟨13, h13⟩).z.getD 0 * 0.2 +
                   (a.keypoints.get ⟨14, h14⟩).z.getD 0 * 0.82⟩ :: l, ?_, by simp [hlen']⟩
        unfold calculateRingAnchors
        rw [ringAnchor_eq_some e13 e14, hl]

/-- C5 witness: a frame consisting only of `handMissing` yields no anchor
list, while the intact single-hand frame `[handA]` yields exactly one
anchor. -/
theorem missing_point_frame_behavior_witness :
    calculateRingAnchors [handMissing] = none ∧
    ∃ l, calculateRingAnchors [handA] = some l ∧ l.length = 1 := by
  constructor
  · exact missing_point_frame_behavior.1 [handMissing] handMissing (by simp) (Or.inr rfl)
  · exact missing_point_frame_behavior.2 [handA] (by
      intro h hm
      simp only [List.mem_singleton] at hm
      subst hm
      simp [handA])

/-! ### Claim C6 — pixel-to-world projection and viewport width -/

/-- The visible world height at camera distance 1 with a 75° vertical
field of view is positive (`tan` of an angle in `(0, π/2)`). -/
theorem visibleHeight_pos : 0 < visibleHeight := by
  unfold visibleHeight
  have h1 : (0 : ℝ) < 75 * Real.pi / 180 / 2 := by positivity
  have h2 : 75 * Real.pi / 180 / 2 < Real.pi / 2 := by nlinarith [Real.pi_pos]
  nlinarith [Real.tan_pos_of_pos_of_lt_pi_div_two h1 h2]

/-- C6 counterexample: an anchor at fractional position `nx = 1` on a
viewport of width 1 projects to world X `visibleHeight/2`; doubling the
width to 2 (pixel x = 2, same fractional position, same height 1) projects
to `visibleHeight` — the projected world X is *not* unchanged. -/
theorem projection_width_invariance_cex : worldX 2 2 1 ≠ worldX 1 1 1 := by
  unfold worldX visibleWidth
  intro heq
  norm_num at heq
  nlinarith [visibleHeight_pos]

/-- C6 (amended): at a fixed fractional position, doubling the viewport
width alone *doubles* the projected world X (the mapping is linear in the
aspect ratio, hence in the width at fixed height); world X is unchanged
only under uniform scaling of width and height together. -/
theorem projection_width_scaling (nx w h : ℝ) (hw : 0 < w) (hh : 0 < h) :
    worldX (nx * (2 * w)) (2 * w) h = 2 * worldX (nx * w) w h ∧
    worldX (nx * (2 * w)) (2 * w) (2 * h) = worldX (nx * w) w h := by
  have hw' : w ≠ 0 := ne_of_gt hw
  have hh' : h ≠ 0 := ne_of_gt hh
  unfold worldX visibleWidth
  constructor
  · field_simp
    ring
  · field_simp
    ring

/-- C6 witness: the amended scaling laws evaluated at fractional position
1 on a 1×1 viewport. -/
theorem projection_width_scaling_witness :
    worldX (1 * (2 * 1)) (2 * 1) 1 = 2 * worldX (1 * 1) 1 1 ∧
    worldX (1 * (2 * 1)) (2 * 1) (2 * 1) = worldX (1 * 1) 1 1 :=
  projection_width_scaling 1 1 1 (by norm_num) (by norm_num)

end TensorFlow3D
